import Mathlib

/-!
Verification of the pythia repository's research-pipeline specification.

The development shallowly embeds, in Lean 4:
* the event-explorer widget's data model and helper functions
  (src/resources/event-explorer/types.ts, src/unnamed/part_010);
* the MCP server's research-request builder and analyze-event handler
  (src/index.ts, src/unnamed/part_001);
* the research orchestration pipeline itself. The pipeline (the Python
  research agent behind the POST /research endpoint) is not part of the
  files available under src/ — only its documentation, zod schemas and
  TypeScript callers are — so those definitions are modelled from the
  spec, as marked in their doc comments.

Machine integers do not occur on the verified paths; strings are Lean
`String`s, lists are Lean `List`s, optional fields are `Option`s, and
fallible operations return `Option`/`Except`.
-/

namespace Pythia

/-! ## Data model of the research output (src/resources/event-explorer/types.ts) -/

/-- `sentimentRatingSchema` of types.ts: the five-point ordinal sentiment scale. -/
inductive SentimentRating where
  | very_bearish
  | bearish
  | neutral
  | bullish
  | very_bullish
deriving Repr, DecidableEq

/-- `newsLinkSchema` of types.ts: a citation extracted from a research call.
`snippet`, `published_date` and `source_name` are optional/nullable in the zod
schema; both `undefined` and `null` are modelled as `none`. -/
structure NewsLink where
  title : String
  url : String
  snippet : Option String
  published_date : Option String
  source_name : Option String
deriving Repr, DecidableEq

/-- `mainEventResearchSchema` of types.ts. -/
structure MainEventResearch where
  event_title : String
  summary : String
  key_findings : List String
  news_links : List NewsLink
  sentiment : SentimentRating
  sentiment_rationale : String
deriving Repr, DecidableEq

/-- `subEventResearchSchema` of types.ts. -/
structure SubEventResearch where
  sub_event_id : String
  sub_event_title : String
  summary : String
  key_findings : List String
  news_links : List NewsLink
  sentiment : SentimentRating
  sentiment_rationale : String
deriving Repr, DecidableEq

/-- `subEventRelationshipSchema` of types.ts. -/
structure SubEventRelationship where
  sub_event_id : String
  sub_event_title : String
  relationship_summary : String
  influencing_news : String
deriving Repr, DecidableEq

/-- `researchOutputSchema` of types.ts. `main_event_research` and
`relationships` are optional/nullable; `undefined` and `null` are both
modelled as `none`. -/
structure ResearchOutput where
  main_event_research : Option MainEventResearch
  sub_event_research : List SubEventResearch
  relationships : Option (List SubEventRelationship)
  synthesis : String
  research_timestamp : String
  disclaimer : String
deriving Repr, DecidableEq

/-! ## mergeNewsLinks (src/unnamed/part_010, lines 311-325) -/

/-- The concatenation built at the top of `mergeNewsLinks`: the main event's
news links (empty when `main_event_research` is absent) followed by every
sub-event's news links in `sub_event_research` order. -/
def allResearchLinks (research : ResearchOutput) : List NewsLink :=
  (match research.main_event_research with
    | some mainResearch => mainResearch.news_links
    | none => []) ++
  research.sub_event_research.flatMap (fun item => item.news_links)

/-- The `for (const link of links)` loop of `mergeNewsLinks`: a link is
skipped when its url is falsy (the empty string) or already in `seen`;
otherwise its url is added to `seen` and the link is kept. -/
def dedupeLinks : List NewsLink → List String → List NewsLink
  | [], _ => []
  | link :: rest, seen =>
    if link.url = "" ∨ link.url ∈ seen then dedupeLinks rest seen
    else link :: dedupeLinks rest (link.url :: seen)

/-- `mergeNewsLinks` of src/unnamed/part_010: the de-duplicated union of all
news links across the research output, keyed by url. -/
def mergeNewsLinks (research : ResearchOutput) : List NewsLink :=
  dedupeLinks (allResearchLinks research) []

/-! ### Properties of the dedupe loop -/

theorem dedupeLinks_mem {links : List NewsLink} {seen : List String}
    {l : NewsLink} (hl : l ∈ dedupeLinks links seen) :
    l ∈ links ∧ l.url ≠ "" ∧ l.url ∉ seen := by
  induction links generalizing seen with
  | nil => simp [dedupeLinks] at hl
  | cons a rest ih =>
    by_cases hskip : a.url = "" ∨ a.url ∈ seen
    · rw [dedupeLinks, if_pos hskip] at hl
      obtain ⟨h1, h2, h3⟩ := ih hl
      exact ⟨List.mem_cons_of_mem _ h1, h2, h3⟩
    · rw [dedupeLinks, if_neg hskip] at hl
      push_neg at hskip
      rcases List.mem_cons.mp hl with heq | hmem
      · exact ⟨heq ▸ List.mem_cons_self _ _, heq ▸ hskip.1, heq ▸ hskip.2⟩
      · obtain ⟨h1, h2, h3⟩ := ih hmem
        refine ⟨List.mem_cons_of_mem _ h1, h2, fun hc => h3 ?_⟩
        exact List.mem_cons_of_mem _ hc

theorem dedupeLinks_sublist (links : List NewsLink) (seen : List String) :
    (dedupeLinks links seen).Sublist links := by
  induction links generalizing seen with
  | nil => simp [dedupeLinks]
  | cons a rest ih =>
    by_cases hskip : a.url = "" ∨ a.url ∈ seen
    · rw [dedupeLinks, if_pos hskip]
      exact (ih seen).cons a
    · rw [dedupeLinks, if_neg hskip]
      exact (ih (a.url :: seen)).cons₂ a

theorem dedupeLinks_nodup_urls (links : List NewsLink) (seen : List String) :
    ((dedupeLinks links seen).map NewsLink.url).Nodup := by
  induction links generalizing seen with
  | nil => simp [dedupeLinks]
  | cons a rest ih =>
    by_cases hskip : a.url = "" ∨ a.url ∈ seen
    · rw [dedupeLinks, if_pos hskip]; exact ih seen
    · rw [dedupeLinks, if_neg hskip]
      refine List.nodup_cons.mpr ⟨?_, ih (a.url :: seen)⟩
      intro hc
      obtain ⟨l, hlmem, hlurl⟩ := List.mem_map.mp hc
      have := (dedupeLinks_mem hlmem).2.2
      exact this (hlurl ▸ List.mem_cons_self _ _)

theorem dedupeLinks_covers {links : List NewsLink} {seen : List String}
    {l : NewsLink} (hl : l ∈ links) (hurl : l.url ≠ "") (hseen : l.url ∉ seen) :
    ∃ l2 ∈ dedupeLinks links seen, l2.url = l.url := by
  induction links generalizing seen with
  | nil => simp at hl
  | cons a rest ih =>
    by_cases hskip : a.url = "" ∨ a.url ∈ seen
    · rw [dedupeLinks, if_pos hskip]
      rcases List.mem_cons.mp hl with heq | hmem
      · subst heq
        rcases hskip with h | h
        · exact absurd h hurl
        · exact absurd h hseen
      · exact ih hmem hseen
    · rw [dedupeLinks, if_neg hskip]
      rcases List.mem_cons.mp hl with heq | hmem
      · exact ⟨a, List.mem_cons_self _ _, by rw [heq]⟩
      · by_cases hsame : l.url = a.url
        · exact ⟨a, List.mem_cons_self _ _, hsame.symm⟩
        · have hseen2 : l.url ∉ a.url :: seen := by
            intro hc
            rcases List.mem_cons.mp hc with h | h
            · exact hsame h
            · exact hseen h
          obtain ⟨l2, hl2mem, hl2url⟩ := ih hmem hseen2
          exact ⟨l2, List.mem_cons_of_mem _ hl2mem, hl2url⟩

theorem dedupeLinks_firstOcc {links : List NewsLink} {seen : List String}
    {l : NewsLink} (hl : l ∈ dedupeLinks links seen) :
    links.find? (fun a => a.url == l.url) = some l := by
  induction links generalizing seen with
  | nil => simp [dedupeLinks] at hl
  | cons a rest ih =>
    by_cases hskip : a.url = "" ∨ a.url ∈ seen
    · rw [dedupeLinks, if_pos hskip] at hl
      obtain ⟨-, hurl, hnotseen⟩ := dedupeLinks_mem hl
      have hne : a.url ≠ l.url := by
        rcases hskip with h | h
        · intro hc; exact hurl (hc ▸ h)
        · intro hc; exact hnotseen (hc ▸ h)
      rw [List.find?_cons_of_neg _ (by simpa using hne)]
      exact ih hl
    · rw [dedupeLinks, if_neg hskip] at hl
      rcases List.mem_cons.mp hl with heq | hmem
      · subst heq
        exact List.find?_cons_of_pos _ (by simp)
      · obtain ⟨-, -, hnotseen⟩ := dedupeLinks_mem hmem
        have hne : a.url ≠ l.url := by
          intro hc
          exact hnotseen (hc ▸ List.mem_cons_self _ _)
        rw [List.find?_cons_of_neg _ (by simpa using hne)]
        exact ih hmem

/-- C6: For every `ResearchOutput`, `mergeNewsLinks` returns the
de-duplicated union of the main event's news links followed by every
sub-event's news links in `sub_event_research` order, keyed by url: the
result is a subsequence of that union (so order is preserved and no
target's own list is modified by the merge), each url appears at most once,
every kept link is the first occurrence of its url in the union, links with
an empty url are dropped, and every non-empty url of the union is
represented. -/
theorem mergeNewsLinks_dedupes (research : ResearchOutput) :
    (mergeNewsLinks research).Sublist (allResearchLinks research) ∧
    ((mergeNewsLinks research).map NewsLink.url).Nodup ∧
    (∀ l ∈ mergeNewsLinks research, l.url ≠ "" ∧
      (allResearchLinks research).find? (fun a => a.url == l.url) = some l) ∧
    (∀ l ∈ allResearchLinks research, l.url ≠ "" →
      ∃ l2 ∈ mergeNewsLinks research, l2.url = l.url) := by
  refine ⟨dedupeLinks_sublist _ _, dedupeLinks_nodup_urls _ _, ?_, ?_⟩
  · intro l hl
    exact ⟨(dedupeLinks_mem hl).2.1, dedupeLinks_firstOcc hl⟩
  · intro l hl hurl
    exact dedupeLinks_covers hl hurl (by simp)

/-- A concrete instantiation of `mergeNewsLinks_dedupes`. -/
theorem mergeNewsLinks_dedupes_example :
    ((mergeNewsLinks
      { main_event_research := none
        sub_event_research :=
          [{ sub_event_id := "s1", sub_event_title := "t1", summary := ""
             key_findings := []
             news_links :=
               [{ title := "a", url := "https://a", snippet := none
                  published_date := none, source_name := none },
                { title := "b", url := "", snippet := none
                  published_date := none, source_name := none },
                { title := "c", url := "https://a", snippet := none
                  published_date := none, source_name := none }]
             sentiment := .neutral, sentiment_rationale := "" }]
        relationships := none, synthesis := "", research_timestamp := ""
        disclaimer := "" }).map NewsLink.url).Nodup :=
  (mergeNewsLinks_dedupes _).2.1

/-! ## JSON values and the zod schema semantics needed by runResearch -/

/-- A JSON value, as produced by `response.json()`. -/
inductive Json where
  | null
  | bool (b : Bool)
  | num (q : ℚ)
  | str (s : String)
  | arr (items : List Json)
  | obj (fields : List (String × Json))

/-- Key lookup in a JSON object, first binding wins. A missing key models the
`undefined` seen by zod. -/
def Json.getField (fields : List (String × Json)) (key : String) : Option Json :=
  match fields.find? (fun p => p.1 == key) with
  | some p => some p.2
  | none => none

/-- `z.string()`: accepts exactly JSON strings. -/
def parseString : Json → Option String
  | .str s => some s
  | _ => none

/-- `z.string().optional().nullable()` applied to a field value: a missing
field (`undefined`) and `null` both parse to `none`; a string parses to
`some`; anything else is rejected. -/
def parseOptNullString : Option Json → Option (Option String)
  | none => some none
  | some .null => some none
  | some (.str s) => some (some s)
  | some _ => none

/-- `schema.optional().nullable()` applied to a field value, for an inner
schema parsed by `f`. -/
def parseOptNull (f : Json → Option α) : Option Json → Option (Option α)
  | none => some none
  | some .null => some none
  | some j => (f j).map some

/-- `z.array(inner)`: accepts exactly JSON arrays all of whose items are
accepted by the inner schema. -/
def parseArray (f : Json → Option α) : Json → Option (List α)
  | .arr items => items.mapM f
  | _ => none

/-- `sentimentRatingSchema`: `z.enum` over the five sentiment strings. -/
def parseSentiment : Json → Option SentimentRating
  | .str "very_bearish" => some .very_bearish
  | .str "bearish" => some .bearish
  | .str "neutral" => some .neutral
  | .str "bullish" => some .bullish
  | .str "very_bullish" => some .very_bullish
  | _ => none

/-- `newsLinkSchema.safeParse`. -/
def parseNewsLink : Json → Option NewsLink
  | .obj fields => do
    let title ← (Json.getField fields "title").bind parseString
    let url ← (Json.getField fields "url").bind parseString
    let snippet ← parseOptNullString (Json.getField fields "snippet")
    let published_date ← parseOptNullString (Json.getField fields "published_date")
    let source_name ← parseOptNullString (Json.getField fields "source_name")
    some { title, url, snippet, published_date, source_name }
  | _ => none

/-- `mainEventResearchSchema.safeParse`. -/
def parseMainEventResearch : Json → Option MainEventResearch
  | .obj fields => do
    let event_title ← (Json.getField fields "event_title").bind parseString
    let summary ← (Json.getField fields "summary").bind parseString
    let key_findings ← (Json.getField fields "key_findings").bind (parseArray parseString)
    let news_links ← (Json.getField fields "news_links").bind (parseArray parseNewsLink)
    let sentiment ← (Json.getField fields "sentiment").bind parseSentiment
    let sentiment_rationale ← (Json.getField fields "sentiment_rationale").bind parseString
    some { event_title, summary, key_findings, news_links, sentiment, sentiment_rationale }
  | _ => none

/-- `subEventResearchSchema.safeParse`. -/
def parseSubEventResearch : Json → Option SubEventResearch
  | .obj fields => do
    let sub_event_id ← (Json.getField fields "sub_event_id").bind parseString
    let sub_event_title ← (Json.getField fields "sub_event_title").bind parseString
    let summary ← (Json.getField fields "summary").bind parseString
    let key_findings ← (Json.getField fields "key_findings").bind (parseArray parseString)
    let news_links ← (Json.getField fields "news_links").bind (parseArray parseNewsLink)
    let sentiment ← (Json.getField fields "sentiment").bind parseSentiment
    let sentiment_rationale ← (Json.getField fields "sentiment_rationale").bind parseString
    some { sub_event_id, sub_event_title, summary, key_findings, news_links,
           sentiment, sentiment_rationale }
  | _ => none

/-- `subEventRelationshipSchema.safeParse`. -/
def parseSubEventRelationship : Json → Option SubEventRelationship
  | .obj fields => do
    let sub_event_id ← (Json.getField fields "sub_event_id").bind parseString
    let sub_event_title ← (Json.getField fields "sub_event_title").bind parseString
    let relationship_summary ← (Json.getField fields "relationship_summary").bind parseString
    let influencing_news ← (Json.getField fields "influencing_news").bind parseString
    some { sub_event_id, sub_event_title, relationship_summary, influencing_news }
  | _ => none

/-- `researchOutputSchema.safeParse` of types.ts: `some` is a successful
parse (zod strips unknown keys, so extra fields are ignored), `none` is a
schema mismatch. -/
def researchOutputSafeParse : Json → Option ResearchOutput
  | .obj fields => do
    let main_event_research ←
      parseOptNull parseMainEventResearch (Json.getField fields "main_event_research")
    let sub_event_research ←
      (Json.getField fields "sub_event_research").bind (parseArray parseSubEventResearch)
    let relationships ←
      parseOptNull (parseArray parseSubEventRelationship) (Json.getField fields "relationships")
    let synthesis ← (Json.getField fields "synthesis").bind parseString
    let research_timestamp ← (Json.getField fields "research_timestamp").bind parseString
    let disclaimer ← (Json.getField fields "disclaimer").bind parseString
    some { main_event_research, sub_event_research, relationships, synthesis,
           research_timestamp, disclaimer }
  | _ => none

/-! ## runResearch (src/unnamed/part_010, lines 230-248) -/

/-- A sub-event of `researchInputSchema` of types.ts. -/
structure SubEventInput where
  id : Option String
  title : String
  description : Option String
deriving Repr, DecidableEq

/-- The main event of `researchInputSchema` of types.ts. -/
structure MainEventInput where
  title : String
  description : Option String
deriving Repr, DecidableEq

/-- `researchInputSchema` of types.ts (already-typed value; the zod runtime
check `.min(1)` on `sub_events` is the only constraint not carried by the
type itself). -/
structure ResearchInput where
  main_event : Option MainEventInput
  sub_events : List SubEventInput
deriving Repr, DecidableEq

/-- The part of a `fetch` response that `runResearch` inspects: `ok`, and the
result of `response.json()` (`none` models a body that is not valid JSON, for
which `response.json()` throws). -/
structure HttpResponse where
  ok : Bool
  body : Option Json

/-- `runResearch` of src/unnamed/part_010: validates the request body against
`researchInputSchema` (whose only runtime-failing constraint on typed input
is `.min(1)`), sends it, throws on a non-ok response, parses the body as
JSON, and validates it against `researchOutputSchema`, throwing on a schema
mismatch. Throws are modelled as `Except.error`. -/
def runResearch (input : ResearchInput) (response : HttpResponse) :
    Except String ResearchOutput :=
  if input.sub_events.length < 1 then
    .error "invalid request body"
  else if ¬ response.ok then
    .error "Research API error"
  else
    match response.body with
    | none => .error "response body is not valid JSON"
    | some raw =>
      match researchOutputSafeParse raw with
      | none => .error "Research response schema mismatch"
      | some parsed => .ok parsed

/-- C5: for every HTTP response body, `runResearch` either throws or returns
exactly the value that `researchOutputSchema.safeParse` accepted for the
body; in particular a body that fails schema validation is turned into a
thrown error, never silently coerced. -/
theorem runResearch_schema_validated (input : ResearchInput) (response : HttpResponse) :
    (∀ out, runResearch input response = .ok out →
      response.ok = true ∧
      ∃ raw, response.body = some raw ∧ researchOutputSafeParse raw = some out) ∧
    (∀ raw, response.body = some raw → researchOutputSafeParse raw = none →
      ∃ e, runResearch input response = .error e) := by
  constructor
  · intro out hout
    unfold runResearch at hout
    split at hout
    · exact absurd hout (by simp)
    · split at hout
      · exact absurd hout (by simp)
      · rename_i hok
        refine ⟨by simpa using hok, ?_⟩
        split at hout
        · exact absurd hout (by simp)
        · rename_i raw hraw
          refine ⟨raw, hraw, ?_⟩
          split at hout
          · exact absurd hout (by simp)
          · rename_i parsed hparsed
            cases hout
            exact hparsed
  · intro raw hraw hfail
    unfold runResearch
    split
    · exact ⟨_, rfl⟩
    · split
      · exact ⟨_, rfl⟩
      · rw [hraw]
        exact ⟨"Research response schema mismatch", by simp [hfail]⟩

/-- A concrete instantiation of `runResearch_schema_validated`: an ok
response whose body is an empty JSON object fails schema validation and is
reported as an error. -/
theorem runResearch_schema_validated_witness :
    ∃ e, runResearch { main_event := none, sub_events := [] }
      { ok := true, body := some (.obj []) } = .error e :=
  (runResearch_schema_validated { main_event := none, sub_events := [] }
    { ok := true, body := some (.obj []) }).2 (.obj []) rfl rfl

/-! ## The MCP server's research-request builder (src/index.ts, src/unnamed/part_001)

The two copies of `titleFromEvent` and `buildResearchRequest` in src/index.ts
and src/unnamed/part_001 are textually identical; the zod schemas differ only
in `.nullable()` annotations, and every access in these functions goes
through `?.`/`??`/`||`, which treat `null` and `undefined` alike, so both
are modelled as `none`. JavaScript numbers are modelled as `ℚ`; host
primitives (JSON.parse, Number.parseFloat, number-to-string coercion,
`new Date().toISOString()`) are parameters of the embedding, collected in
`JsEnv`. -/

/-- Host-runtime primitives used by the embedded TypeScript. `jsonParse s =
none` models a `JSON.parse` exception, `parseFloat s = none` models `NaN`. -/
structure JsEnv where
  jsonParse : String → Option Json
  parseFloat : String → Option ℚ
  stringOfNum : ℚ → String
  nowIso : String

/-- An element of the `outcomes` union's object form in
`incomingMarketSchema`: `{ name, price? }`. -/
structure OutcomeObj where
  name : String
  price : Option (ℚ ⊕ String)
deriving Repr, DecidableEq

/-- The `outcomes` union of `incomingMarketSchema`:
`z.string() | z.array(z.string()) | z.array({name, price?})`. -/
inductive OutcomesField where
  | text (s : String)
  | names (items : List String)
  | objs (items : List OutcomeObj)
deriving Repr, DecidableEq

/-- `incomingMarketSchema` of src/index.ts / src/unnamed/part_001 (the fields
the verified functions read; `.passthrough()` keys are irrelevant to them). -/
structure IncomingMarket where
  id : Option String
  title : Option String
  question : Option String
  slug : Option String
  category : Option String
  volume : Option (ℚ ⊕ String)
  liquidity : Option (ℚ ⊕ String)
  endDate : Option String
  outcomes : Option OutcomesField
  outcomePrices : Option String
  isResolved : Option Bool
  subMarketCount : Option ℚ
deriving Repr, DecidableEq

/-- `incomingEventSchema` of src/index.ts / src/unnamed/part_001;
`markets` has `.default([])`, so it is always a list after parsing. -/
structure IncomingEvent where
  id : String
  title : Option String
  description : Option String
  slug : Option String
  category : Option String
  volume : Option (ℚ ⊕ String)
  markets : List IncomingMarket
deriving Repr, DecidableEq

/-- JavaScript string truthiness applied to an optional string: keeps the
value exactly when it is present and non-empty (`undefined`, `null` and `""`
are all falsy). -/
def strTruthy : Option String → Option String
  | some s => if s = "" then none else some s
  | none => none

/-- `titleFromEvent` of src/index.ts (lines 274-281): the event's trimmed
title if truthy, else the first market's trimmed title `||` trimmed
question if truthy, else the event id. -/
def titleFromEvent (event : IncomingEvent) : String :=
  match strTruthy (event.title.map String.trim) with
  | some directTitle => directTitle
  | none =>
    let firstMarket := event.markets.head?
    match (strTruthy ((firstMarket.bind (fun m => m.title)).map String.trim)).orElse
        (fun _ => strTruthy ((firstMarket.bind (fun m => m.question)).map String.trim)) with
    | some marketTitle => marketTitle
    | none => event.id

/-- The sub-event entries derived from `relatedEvents` at the top of
`buildResearchRequest`: one `{title, description?}` per related event (the
`description` key is set only when the description is truthy), keeping only
entries whose trimmed title is non-empty. -/
def relatedSubEvents (relatedEvents : List IncomingEvent) : List MainEventInput :=
  (relatedEvents.map (fun event =>
    ({ title := titleFromEvent event
       description := strTruthy event.description } : MainEventInput))).filter
    (fun event => 0 < event.title.trim.length)

/-- The fallback sub-event entries of `buildResearchRequest`: the main
event's market questions (`question ?? title ?? ""`) with non-blank titles,
at most the first 5. -/
def derivedSubEvents (mainEvent : IncomingEvent) : List MainEventInput :=
  (((mainEvent.markets.map (fun market =>
      market.question.getD (market.title.getD ""))).filter
      (fun title => 0 < title.trim.length)).take 5).map
    (fun title => ({ title, description := none } : MainEventInput))

/-- The request shape sent to POST /research (the `ResearchRequest`
interface of src/index.ts); sub-event entries have the same `{title,
description?}` shape as the main event. -/
structure ResearchRequest where
  main_event : Option MainEventInput
  sub_events : List MainEventInput
deriving Repr, DecidableEq

/-- `buildResearchRequest` of src/index.ts (lines 283-315): sub-events from
the related events; if none survive the blank-title filter, up to 5 entries
derived from the main event's market questions; if still none, a single
`<main title> market outlook` entry. The main event is always included. -/
def buildResearchRequest (mainEvent : IncomingEvent) (relatedEvents : List IncomingEvent) :
    ResearchRequest :=
  let subEvents0 := relatedSubEvents relatedEvents
  let subEvents1 := if subEvents0.length = 0 then subEvents0 ++ derivedSubEvents mainEvent
    else subEvents0
  let subEvents2 := if subEvents1.length = 0 then
      subEvents1 ++ [{ title := titleFromEvent mainEvent ++ " market outlook"
                       description := none }]
    else subEvents1
  { main_event := some { title := titleFromEvent mainEvent
                         description := mainEvent.description }
    sub_events := subEvents2 }

/-- C9: `buildResearchRequest` always produces a non-empty `sub_events`
list — so every request this caller builds satisfies the pipeline's
non-empty `sub_events` precondition — with `main_event` always present and
titled by `titleFromEvent`; the sub-events are the related events' entries
when any survives the blank-title filter, else at most 5 entries derived
from the main event's market questions, else the single
`<main title> market outlook` entry. -/
theorem buildResearchRequest_spec (mainEvent : IncomingEvent)
    (relatedEvents : List IncomingEvent) :
    (buildResearchRequest mainEvent relatedEvents).sub_events ≠ [] ∧
    (buildResearchRequest mainEvent relatedEvents).main_event =
      some { title := titleFromEvent mainEvent, description := mainEvent.description } ∧
    (relatedSubEvents relatedEvents ≠ [] →
      (buildResearchRequest mainEvent relatedEvents).sub_events =
        relatedSubEvents relatedEvents) ∧
    (relatedSubEvents relatedEvents = [] → derivedSubEvents mainEvent ≠ [] →
      (buildResearchRequest mainEvent relatedEvents).sub_events =
        derivedSubEvents mainEvent ∧ (derivedSubEvents mainEvent).length ≤ 5) ∧
    (relatedSubEvents relatedEvents = [] → derivedSubEvents mainEvent = [] →
      (buildResearchRequest mainEvent relatedEvents).sub_events =
        [{ title := titleFromEvent mainEvent ++ " market outlook", description := none }]) := by
  have hlen : (derivedSubEvents mainEvent).length ≤ 5 := by
    unfold derivedSubEvents
    simp only [List.length_map]
    exact le_trans (List.length_take_le _ _) (by simp)
  unfold buildResearchRequest
  by_cases h0 : relatedSubEvents relatedEvents = []
  · by_cases h1 : derivedSubEvents mainEvent = []
    · simp [h0, h1]
    · have hlen1 : (relatedSubEvents relatedEvents).length = 0 := by simp [h0]
      have hlen2 : (derivedSubEvents mainEvent).length ≠ 0 := by
        simpa using h1
      simp [h0, h1, hlen1, hlen2, hlen]
  · have hlen1 : (relatedSubEvents relatedEvents).length ≠ 0 := by
      simpa using h0
    simp [h0, hlen1]

/-- A concrete instantiation of `buildResearchRequest_spec`: with no related
events and a market-less main event, the request still has a (single,
outlook) sub-event. -/
theorem buildResearchRequest_spec_witness :
    (buildResearchRequest
      { id := "evt-x", title := some "Fed rate path", description := none
        slug := none, category := none, volume := none, markets := [] }
      []).sub_events ≠ [] :=
  (buildResearchRequest_spec
    { id := "evt-x", title := some "Fed rate path", description := none
      slug := none, category := none, volume := none, markets := [] } []).1

/-! ## Market normalization and the analyze-event tool (src/unnamed/part_001, src/index.ts) -/

/-- The `unknown` values that `parseStringList` actually receives: a missing
field, a string, an array of strings, or an array of outcome objects. -/
inductive JsValue where
  | undefinedVal
  | str (s : String)
  | strArr (items : List String)
  | objArr (items : List OutcomeObj)
deriving Repr, DecidableEq

/-- An optional string field viewed as a `parseStringList` argument. -/
def jsOfOptString : Option String → JsValue
  | some s => .str s
  | none => .undefinedVal

/-- An optional `outcomes` field viewed as a `parseStringList` argument. -/
def jsOfOutcomes : Option OutcomesField → JsValue
  | some (.text s) => .str s
  | some (.names items) => .strArr items
  | some (.objs items) => .objArr items
  | none => .undefinedVal

mutual

/-- JavaScript `String(x)` coercion on a JSON value (the elements produced
by `JSON.parse`): strings pass through, arrays join their elements with
commas (`null` joining as the empty string), plain objects print as
`[object Object]`, and numbers go through the host's number formatting. -/
def jsStringOfJson (env : JsEnv) : Json → String
  | .null => "null"
  | .bool b => if b then "true" else "false"
  | .num q => env.stringOfNum q
  | .str s => s
  | .obj _ => "[object Object]"
  | .arr items => String.intercalate "," (jsJoinParts env items)

/-- The element strings of a JavaScript array join: `null` joins as the
empty string, other elements through `String(x)`. -/
def jsJoinParts (env : JsEnv) : List Json → List String
  | [] => []
  | .null :: rest => "" :: jsJoinParts env rest
  | j :: rest => jsStringOfJson env j :: jsJoinParts env rest

end

/-- `parseStringList` of src/index.ts (lines 209-223): arrays map their items
through `String(...).trim()` and drop falsy entries; non-strings and blank
strings give `[]`; a string is parsed as JSON and, if that yields an array,
its items are stringified, else the string is split on commas. -/
def parseStringList (env : JsEnv) : JsValue → List String
  | .strArr items => (items.map (fun item => item.trim)).filter (fun s => s != "")
  | .objArr items =>
    (items.map (fun _ => ("[object Object]" : String).trim)).filter (fun s => s != "")
  | .undefinedVal => []
  | .str value =>
    if value.trim = "" then []
    else
      match env.jsonParse value with
      | some (.arr parsed) =>
        (parsed.map (fun item => (jsStringOfJson env item).trim)).filter (fun s => s != "")
      | _ =>
        ((value.splitOn ",").map (fun item => item.trim)).filter (fun s => s != "")

/-- `parseNumberList` of src/index.ts: `parseStringList` then
`Number.parseFloat`, keeping only finite results. -/
def parseNumberList (env : JsEnv) (value : JsValue) : List ℚ :=
  (parseStringList env value).filterMap env.parseFloat

/-- `toNumber` of src/index.ts (lines 200-207): a finite number passes
through, a string goes through `Number.parseFloat` and is kept if finite,
anything else is `null`. -/
def toNumber (env : JsEnv) : Option (ℚ ⊕ String) → Option ℚ
  | some (Sum.inl n) => some n
  | some (Sum.inr s) => env.parseFloat s
  | none => none

/-- A normalized outcome `{ name, price }`. -/
structure OutcomePair where
  name : String
  price : ℚ
deriving Repr, DecidableEq

/-- The fall-through tail of `normalizeOutcomes`: parse the outcomes field as
a string list; if non-empty pair the names with parsed prices, else default
to even Yes/No. -/
def normalizeOutcomesDefault (env : JsEnv) (market : IncomingMarket) : List OutcomePair :=
  let names := parseStringList env (jsOfOutcomes market.outcomes)
  if 0 < names.length then
    let prices := parseNumberList env (jsOfOptString market.outcomePrices)
    names.mapIdx (fun idx name => { name := name, price := (prices.get? idx).getD 0.5 })
  else
    [{ name := "Yes", price := 0.5 }, { name := "No", price := 0.5 }]

/-- `normalizeOutcomes` of src/index.ts (lines 231-257): a non-empty array of
names is paired with `outcomePrices`; a non-empty array of objects takes each
object's own price, falling back to `outcomePrices`, then 0.5; everything
else goes through the string-list fall-through. -/
def normalizeOutcomes (env : JsEnv) (market : IncomingMarket) : List OutcomePair :=
  match market.outcomes with
  | some (.names items) =>
    if 0 < items.length then
      let prices := parseNumberList env (jsOfOptString market.outcomePrices)
      items.mapIdx (fun idx name => { name := name, price := (prices.get? idx).getD 0.5 })
    else normalizeOutcomesDefault env market
  | some (.objs items) =>
    if 0 < items.length then
      let fallbackPrices := parseNumberList env (jsOfOptString market.outcomePrices)
      items.mapIdx (fun idx outcome =>
        { name := outcome.name
          price := ((toNumber env outcome.price).orElse
            (fun _ => fallbackPrices.get? idx)).getD 0.5 })
    else normalizeOutcomesDefault env market
  | _ => normalizeOutcomesDefault env market

/-- The `NormalizedMarket` interface of src/index.ts. -/
structure NormalizedMarket where
  id : String
  title : String
  slug : String
  category : String
  volume : ℚ
  liquidity : ℚ
  endDate : String
  outcomes : List OutcomePair
  isResolved : Bool
  subMarketCount : Option ℚ
deriving Repr, DecidableEq

/-- `normalizeMarketForAnalysis` of src/index.ts (lines 259-272);
`new Date().toISOString()` is the host's `nowIso`. -/
def normalizeMarketForAnalysis (env : JsEnv) (market : IncomingMarket) (index : Nat)
    (fallbackCategory : String) : NormalizedMarket :=
  { id := market.id.getD ("market-" ++ toString (index + 1))
    title := market.title.getD (market.question.getD "Untitled market")
    slug := market.slug.getD (market.id.getD ("market-" ++ toString (index + 1)))
    category := market.category.getD fallbackCategory
    volume := (toNumber env market.volume).getD 0
    liquidity := (toNumber env market.liquidity).getD 0
    endDate := market.endDate.getD env.nowIso
    outcomes := normalizeOutcomes env market
    isResolved := market.isResolved.getD false
    subMarketCount := market.subMarketCount }

/-- An entry of the module-level `positions` mock table. -/
structure Position where
  id : String
  marketTitle : String
  outcome : String
  shares : ℚ
  avgPrice : ℚ
  currentPrice : ℚ
  pnl : ℚ
  pnlPercent : ℚ
  marketSlug : String
deriving Repr, DecidableEq

/-- The position fields copied into the widget props. -/
structure PositionInfo where
  id : String
  outcome : String
  shares : ℚ
  avgPrice : ℚ
  currentPrice : ℚ
  pnl : ℚ
  pnlPercent : ℚ
deriving Repr, DecidableEq

/-- The buy/sell/hold recommendation. -/
inductive UserAction where
  | buy
  | sell
  | hold
deriving Repr, DecidableEq

/-- A normalized market together with its recommendation and position (in
the TypeScript the market's fields are spread flat into this object). -/
structure MarketWithAction where
  market : NormalizedMarket
  userAction : UserAction
  position : Option PositionInfo
deriving Repr, DecidableEq

/-- The per-market step of the analyze-event handler (lines 616-638): look
the market's slug up in `positions`; with a position, recommend hold on
non-negative pnl and sell otherwise, else recommend buy. -/
def attachUserAction (positions : List Position) (market : NormalizedMarket) :
    MarketWithAction :=
  match positions.find? (fun p => p.marketSlug == market.slug) with
  | some position =>
    { market := market
      userAction := if 0 ≤ position.pnl then .hold else .sell
      position := some
        { id := position.id, outcome := position.outcome, shares := position.shares
          avgPrice := position.avgPrice, currentPrice := position.currentPrice
          pnl := position.pnl, pnlPercent := position.pnlPercent } }
  | none => { market := market, userAction := .buy, position := none }

/-- An entry of the module-level `markets` tables inside the `events` mock
data. -/
structure MarketData where
  id : String
  title : String
  slug : String
  category : String
  volume : ℚ
  liquidity : ℚ
  endDate : String
  outcomes : List OutcomePair
  isResolved : Bool
  subMarketCount : Option ℚ
deriving Repr, DecidableEq

/-- The `EventData` interface of src/unnamed/part_001 (the `events` mock
table's entry shape). -/
structure EventData where
  id : String
  title : String
  description : String
  slug : String
  category : String
  volume : ℚ
  markets : List MarketData
deriving Repr, DecidableEq

/-- The structural conversion TypeScript applies when a `MarketData` value
flows into an `IncomingMarket` position. -/
def MarketData.toIncoming (m : MarketData) : IncomingMarket :=
  { id := some m.id, title := some m.title, question := none, slug := some m.slug
    category := some m.category, volume := some (Sum.inl m.volume)
    liquidity := some (Sum.inl m.liquidity), endDate := some m.endDate
    outcomes := some (.objs (m.outcomes.map (fun o =>
      { name := o.name, price := some (Sum.inl o.price) })))
    outcomePrices := none, isResolved := some m.isResolved
    subMarketCount := m.subMarketCount }

/-- The `main_event_research` member of the `ResearchResponse` interface of
src/index.ts. -/
structure MainResearchSummary where
  summary : Option String
deriving Repr, DecidableEq

/-- The `ResearchResponse` interface of src/index.ts: the two fields the
caller reads from the POST /research reply. -/
structure ResearchResponse where
  main_event_research : Option MainResearchSummary
  synthesis : Option String
deriving Repr, DecidableEq

/-- The event object placed in the analysis widget props. -/
structure EventInfoOut where
  id : String
  title : String
  description : String
  slug : String
  category : String
  volume : ℚ
deriving Repr, DecidableEq

/-- The props of the event-analysis widget returned by the handler. -/
structure AnalysisWidgetProps where
  event : EventInfoOut
  markets : List MarketWithAction
deriving Repr, DecidableEq

/-- What the analyze-event tool returns: plain text (event not found) or a
widget with props and an output line. -/
inductive ToolResult where
  | plainText (s : String)
  | widgetResult (props : AnalysisWidgetProps) (output : String)
deriving Repr, DecidableEq

/-- The `selectedEvent` computation of the analyze-event handler (lines
579-590): the provided main event, else the mock `events` entry with the
requested id lifted to the incoming-event shape, else nothing. -/
def selectedEventOf (events : List EventData) (eventId : String)
    (mainEvent : Option IncomingEvent) : Option IncomingEvent :=
  mainEvent.orElse (fun _ => (events.find? (fun e => e.id == eventId)).map (fun f =>
    { id := f.id, title := some f.title, description := some f.description
      slug := some f.slug, category := some f.category
      volume := some (Sum.inl f.volume)
      markets := f.markets.map MarketData.toIncoming }))

/-- The analyze-event tool handler of src/unnamed/part_001 (lines 578-658).
The module-level mock tables (`events`, `positions`) and the awaited
network call (`runResearch` over the built request) are passed explicitly;
a thrown research error is the call returning `Except.error`. -/
def analyzeEvent (env : JsEnv) (events : List EventData) (positions : List Position)
    (eventId : String) (mainEvent : Option IncomingEvent)
    (relatedEvents : List IncomingEvent)
    (runResearchCall : ResearchRequest → Except String ResearchResponse) : ToolResult :=
  let fallbackEvent := events.find? (fun e => e.id == eventId)
  match selectedEventOf events eventId mainEvent with
  | none => .plainText ("Event not found: " ++ eventId)
  | some selectedEvent =>
    let analysis0 := selectedEvent.description.getD "Analysis unavailable."
    let researchOutcome := runResearchCall (buildResearchRequest selectedEvent relatedEvents)
    let analysis :=
      match researchOutcome with
      | .ok research =>
        ((research.main_event_research.bind (fun m => m.summary)).orElse
          (fun _ => research.synthesis)).getD analysis0
      | .error _ => analysis0
    let researchError :=
      match researchOutcome with
      | .ok _ => (none : Option String)
      | .error err => some err
    let rawMarkets := if 0 < selectedEvent.markets.length then selectedEvent.markets
      else (fallbackEvent.map (fun f => f.markets.map MarketData.toIncoming)).getD []
    let normalizedMarkets := rawMarkets.mapIdx (fun index market =>
      normalizeMarketForAnalysis env market index (selectedEvent.category.getD "General"))
    let marketsWithAction := normalizedMarkets.map (attachUserAction positions)
    .widgetResult
      { event :=
          { id := selectedEvent.id
            title := titleFromEvent selectedEvent
            description := analysis
            slug := selectedEvent.slug.getD selectedEvent.id
            category := selectedEvent.category.getD "General"
            volume := (toNumber env selectedEvent.volume).getD
              (normalizedMarkets.foldl (fun sum market => sum + market.volume) 0) }
        markets := marketsWithAction }
      (match researchError with
       | some err =>
         "Event: " ++ titleFromEvent selectedEvent ++ " — showing " ++
           toString marketsWithAction.length ++
           " markets. Research API failed: " ++ err
       | none =>
         "Event: " ++ titleFromEvent selectedEvent ++ " — " ++
           toString marketsWithAction.length ++ " markets analyzed. " ++
           toString ((marketsWithAction.filter
             (fun m => m.userAction != UserAction.buy)).length) ++
           " markets with existing positions.")

/-- C10: when the selected event exists, a thrown `runResearch` failure does
not propagate out of the analyze-event handler: the tool still returns a
widget whose markets are the normalized markets, whose analysis text falls
back to the event's own description, and whose output line reports the
research error message in-band. -/
theorem analyzeEvent_research_failure (env : JsEnv) (events : List EventData)
    (positions : List Position) (eventId : String) (mainEvent : Option IncomingEvent)
    (relatedEvents : List IncomingEvent)
    (runResearchCall : ResearchRequest → Except String ResearchResponse)
    (ev : IncomingEvent) (msg : String)
    (hsel : selectedEventOf events eventId mainEvent = some ev)
    (herr : runResearchCall (buildResearchRequest ev relatedEvents) = .error msg) :
    ∃ props,
      analyzeEvent env events positions eventId mainEvent relatedEvents runResearchCall =
        .widgetResult props
          ("Event: " ++ titleFromEvent ev ++ " — showing " ++
            toString props.markets.length ++ " markets. Research API failed: " ++ msg) ∧
      props.event.description = ev.description.getD "Analysis unavailable." ∧
      props.markets =
        ((if 0 < ev.markets.length then ev.markets
          else ((events.find? (fun e => e.id == eventId)).map
            (fun f => f.markets.map MarketData.toIncoming)).getD []).mapIdx
          (fun index market =>
            normalizeMarketForAnalysis env market index (ev.category.getD "General"))).map
          (attachUserAction positions) := by
  unfold analyzeEvent
  rw [hsel]
  simp only [herr]
  exact ⟨_, rfl, rfl, rfl⟩

/-- A host environment for concrete evaluation of the handler. -/
def exampleJsEnv : JsEnv :=
  { jsonParse := fun _ => none, parseFloat := fun _ => none
    stringOfNum := fun _ => "", nowIso := "2026-01-01T00:00:00.000Z" }

/-- A concrete incoming event for the handler instantiation. -/
def exampleIncomingEvent : IncomingEvent :=
  { id := "evt-1", title := some "Fed decision", description := some "Fed meets in June."
    slug := none, category := none, volume := none, markets := [] }

/-- A concrete instantiation of `analyzeEvent_research_failure`. -/
theorem analyzeEvent_research_failure_witness :
    ∃ props,
      analyzeEvent exampleJsEnv [] [] "evt-1" (some exampleIncomingEvent) []
          (fun _ => .error "network down") =
        .widgetResult props
          ("Event: " ++ titleFromEvent exampleIncomingEvent ++ " — showing " ++
            toString props.markets.length ++
            " markets. Research API failed: " ++ "network down") ∧
      props.event.description =
        exampleIncomingEvent.description.getD "Analysis unavailable." ∧
      props.markets =
        ((if 0 < exampleIncomingEvent.markets.length then exampleIncomingEvent.markets
          else ((([] : List EventData).find? (fun e => e.id == "evt-1")).map
            (fun f => f.markets.map MarketData.toIncoming)).getD []).mapIdx
          (fun index market =>
            normalizeMarketForAnalysis exampleJsEnv market index
              (exampleIncomingEvent.category.getD "General"))).map
          (attachUserAction []) :=
  analyzeEvent_research_failure exampleJsEnv [] [] "evt-1" (some exampleIncomingEvent) []
    (fun _ => .error "network down") exampleIncomingEvent "network down" rfl rfl

/-! ## The research orchestration pipeline

The pipeline itself (the Python research agent served behind POST
/research) is not among the files under src/ — only its documentation
(src/agents/PLAN.md, src/agents/API_DOCS.md, src/server/README.md), its zod
schemas and its TypeScript callers are. The definitions in this namespace
are therefore modelled from the spec, as their doc comments state. -/

namespace Agent

/-- Modelled from the spec: `ResearchTarget` (§3) — one thing to research. -/
structure ResearchTarget where
  id : String
  title : String
  description : Option String
deriving Repr, DecidableEq

/-- Modelled from the spec: `RawResearchResult` (§3) — the unit produced by
one Research Call. -/
structure RawResearchResult where
  target_id : String
  raw_text : String
  links : List NewsLink
  succeeded : Bool
  error : Option String
deriving Repr, DecidableEq

/-- Modelled from the spec: the outcome of a single attempt of a Research
Call (§4.1/§4.2) — either a returned `RawResearchResult` or a raise/timeout
failure absorbed by the Retrying Call Wrapper. -/
inductive CallOutcome where
  | success (r : RawResearchResult)
  | failure (err : String)
deriving Repr, DecidableEq

/-- Modelled from the spec: the failed result the Retrying Call Wrapper
returns on final failure (§4.2): `succeeded = false`, carrying the last
error. -/
def failedResult (target_id : String) (err : String) : RawResearchResult :=
  { target_id := target_id, raw_text := "", links := [], succeeded := false
    error := some err }

/-- Modelled from the spec: the attempt loop of `with_retry` (§4.2). The
call factory is the sequence of outcomes of the fresh invocations it
produces, indexed by attempt; `remaining` is the number of attempts still
allowed. Returns the result and the attempt counter after the last attempt
made. -/
def runAttempts (target_id : String) (callFactory : Nat → CallOutcome) :
    Nat → Nat → RawResearchResult × Nat
  | attempt, 0 => (failedResult target_id "no attempts were made", attempt)
  | attempt, remaining + 1 =>
    match callFactory attempt with
    | .success r => (r, attempt + 1)
    | .failure err =>
      if remaining = 0 then (failedResult target_id err, attempt + 1)
      else runAttempts target_id callFactory (attempt + 1) remaining

/-- Modelled from the spec: `with_retry(call_factory, max_retries,
retry_delay, timeout)` (§4.2): attempt the call, retrying up to
`max_retries` additional attempts, converting the final failure into a
failed `RawResearchResult` instead of raising. Returns the result paired
with the number of attempts made. -/
def with_retry (target_id : String) (callFactory : Nat → CallOutcome)
    (max_retries : Nat) : RawResearchResult × Nat :=
  runAttempts target_id callFactory 0 (max_retries + 1)

/-- Modelled from the spec: the caller-tunable configuration surface (§6),
durations in milliseconds. -/
structure Config where
  per_research_timeout : Nat
  synthesis_timeout : Nat
  total_timeout : Nat
  max_concurrent_research : Nat
  max_retries : Nat
  retry_delay : Nat
deriving Repr, DecidableEq

/-- Modelled from the spec: the per-target part of `StructuredAnalysis`
(§4.5): sentiment + rationale + findings + summary for one target (the news
links are attached later by the Output Assembler, §4.7). -/
structure EventAnalysis where
  target_id : String
  title : String
  summary : String
  key_findings : List String
  sentiment : SentimentRating
  sentiment_rationale : String
deriving Repr, DecidableEq

/-- Modelled from the spec: `Relationship` (§3) — present only when a main
event exists, one per sub-event. -/
structure Relationship where
  sub_event_id : String
  sub_event_title : String
  relationship_summary : String
  influencing_news : String
deriving Repr, DecidableEq

/-- Modelled from the spec: `StructuredAnalysis`, the Synthesizer's product
(§4.5): per-target analysis (main when present, one entry per sub-event),
relationships in the main-event case, and the overall narrative. -/
structure StructuredAnalysis where
  main : Option EventAnalysis
  subs : List EventAnalysis
  relationships : Option (List Relationship)
  synthesis : String
deriving Repr, DecidableEq

/-- Modelled from the spec: `EventResearch` (§3). -/
structure EventResearch where
  target_id : String
  title : String
  summary : String
  key_findings : List String
  news_links : List NewsLink
  sentiment : SentimentRating
  sentiment_rationale : String
deriving Repr, DecidableEq

/-- Modelled from the spec: the pipeline's terminal `ResearchOutput` (§3);
absent `main_event_research`/`relationships` are structurally omitted
(`none`), not empty lists. -/
structure ResearchOutput where
  main_event_research : Option EventResearch
  sub_event_research : List EventResearch
  relationships : Option (List Relationship)
  synthesis : String
  research_timestamp : String
  disclaimer : String
deriving Repr, DecidableEq

/-- Modelled from the spec: the raw-result bundle handed from the
Fan-Out/Fan-In stage to the later stages (§4.4). -/
structure RawBundle where
  main : Option RawResearchResult
  subs : List RawResearchResult
deriving Repr, DecidableEq

/-- Modelled from the spec: everything external a pipeline run interacts
with — per-target sequences of Research Call attempt outcomes (keyed by
target id), the Synthesizer call's outcome (`none` is a failed call, §4.5),
whether the total-timeout guard fired and which targets had completed by
then (§4.8), and the current time read by the Output Assembler (§4.7). -/
structure PipelineEnv where
  callOutcome : String → Nat → CallOutcome
  synth : Option StructuredAnalysis
  timedOut : Bool
  completed : String → Bool
  now : String

/-- Modelled from the spec: the fixed-schema validation of the Synthesizer's
response (§4.5, with the output invariants of §3): one per-target entry in
submission order, a main entry exactly when a main event exists, and
relationships exactly when a main event exists, one per sub-event; a
response failing this is treated as a Synthesizer failure. -/
def validAnalysis (main : Option ResearchTarget) (subs : List ResearchTarget)
    (a : StructuredAnalysis) : Bool :=
  (a.subs.map (fun e => e.target_id) == subs.map (fun t => t.id)) &&
  (a.main.isSome == main.isSome) &&
  (match main with
   | some _ =>
     match a.relationships with
     | some rels => rels.map (fun r => r.sub_event_id) == subs.map (fun t => t.id)
     | none => false
   | none => a.relationships.isNone)

/-- Modelled from the spec: the bounded-length truncation the Fallback
Synthesizer applies to a target's raw text (§4.6). -/
def truncateSummary (text : String) : String := text.take 500

/-- Modelled from the spec: the Fallback Synthesizer's per-target entry
(§4.6): sentiment `neutral`, a single degraded-mode finding, summary from
the target's raw text, or an explicit unavailability message when that
target's Research Call failed. -/
def fallbackEntry (target : ResearchTarget) (raw : Option RawResearchResult) :
    EventAnalysis :=
  { target_id := target.id
    title := target.title
    summary :=
      match raw with
      | some r =>
        if r.succeeded then truncateSummary r.raw_text
        else "Research was unavailable for this target."
      | none => "Research was unavailable for this target."
    key_findings := ["Automated synthesis was unavailable; a degraded summary is shown."]
    sentiment := .neutral
    sentiment_rationale := "Degraded mode: sentiment defaulted to neutral." }

/-- Modelled from the spec: `fallback_synthesize(main?, subs, raw)` (§4.6):
a pure function of its arguments, no I/O, cannot fail; relationships get a
generic templated summary when a main event exists; the narrative is
templated and lists the targets with usable raw research. -/
def fallback_synthesize (main : Option ResearchTarget) (subs : List ResearchTarget)
    (raw : RawBundle) : StructuredAnalysis :=
  { main := main.map (fun t => fallbackEntry t raw.main)
    subs := subs.mapIdx (fun i t => fallbackEntry t raw.subs[i]?)
    relationships := main.map (fun _ => subs.map (fun t =>
      ({ sub_event_id := t.id, sub_event_title := t.title
         relationship_summary := "Relationship analysis was unavailable in degraded mode."
         influencing_news := "No automated relationship analysis is available." } : Relationship)))
    synthesis := "Automated synthesis was unavailable. Usable raw research was collected for: " ++
      String.intercalate ", "
        ((raw.subs.filter (fun r => r.succeeded)).map (fun r => r.target_id)) ++ "." }

/-- Modelled from the spec: the degraded `EventResearch` entry the Output
Assembler emits for a target whose Research Call failed (§3 invariants,
§7(a)): sentiment `neutral` and an explanatory summary, never a missing
entry. -/
def degradedResearch (target : ResearchTarget) (err : Option String) : EventResearch :=
  { target_id := target.id
    title := target.title
    summary := "Research for this event was unavailable: " ++
      err.getD "unknown error" ++ "."
    key_findings := []
    news_links := []
    sentiment := .neutral
    sentiment_rationale := "Research failed; sentiment defaulted to neutral." }

/-- Modelled from the spec: the Output Assembler's per-target merge (§4.7,
with the degradation policy of §7(a)): a successful target's analysis entry
is kept and carries that target's own news links; a failed (or missing)
target is degraded in place. -/
def assembleEntry (target : ResearchTarget) (raw : Option RawResearchResult)
    (analysis : Option EventAnalysis) : EventResearch :=
  match raw, analysis with
  | some r, some a =>
    if r.succeeded then
      { target_id := target.id, title := target.title, summary := a.summary
        key_findings := a.key_findings, news_links := r.links
        sentiment := a.sentiment, sentiment_rationale := a.sentiment_rationale }
    else degradedResearch target r.error
  | some r, none => degradedResearch target r.error
  | none, _ => degradedResearch target none

/-- Modelled from the spec: the Output Assembler's walk over the submitted
sub-events, pairing each with its raw result positionally and its analysis
entry by id (§4.7; duplicate ids resolve to the first match, §3). -/
def assembleSubs (analysis : StructuredAnalysis) :
    List ResearchTarget → List RawResearchResult → List EventResearch
  | [], _ => []
  | t :: ts, [] =>
    assembleEntry t none (analysis.subs.find? (fun a => a.target_id == t.id)) ::
      assembleSubs analysis ts []
  | t :: ts, r :: rs =>
    assembleEntry t (some r) (analysis.subs.find? (fun a => a.target_id == t.id)) ::
      assembleSubs analysis ts rs

/-- Modelled from the spec: the relationship entry the Output Assembler
keeps for one sub-event — the analysis's matching entry, or a generic
per-sub-event degradation when the analysis lacks one (§3 invariant, §9). -/
def relationshipFor (analysis : StructuredAnalysis) (t : ResearchTarget) : Relationship :=
  match (analysis.relationships.getD []).find? (fun r => r.sub_event_id == t.id) with
  | some r => r
  | none =>
    { sub_event_id := t.id, sub_event_title := t.title
      relationship_summary := "Relationship analysis was unavailable."
      influencing_news := "No automated relationship analysis is available." }

/-- Modelled from the spec: the static disclaimer stamped by the Output
Assembler (§4.7). -/
def disclaimerText : String :=
  "This research is for informational purposes only and is not financial advice."

/-- Modelled from the spec: `assemble(raw, analysis)` (§4.7): a pure merge —
one `EventResearch` per submitted target carrying that target's own news
links, relationships exactly when a main event exists (one per sub-event),
the current timestamp and the static disclaimer. -/
def assemble (main : Option ResearchTarget) (subs : List ResearchTarget)
    (raw : RawBundle) (analysis : StructuredAnalysis) (now : String) : ResearchOutput :=
  { main_event_research := main.map (fun t => assembleEntry t raw.main analysis.main)
    sub_event_research := assembleSubs analysis subs raw.subs
    relationships := main.map (fun _ => subs.map (relationshipFor analysis))
    synthesis := analysis.synthesis
    research_timestamp := now
    disclaimer := disclaimerText }

/-- Modelled from the spec: the raw sub-event results after the
total-timeout guard (§4.8): results of targets that had not completed when
the guard fired are replaced by failed placeholders. -/
def timeoutGuardSubs (env : PipelineEnv) :
    List ResearchTarget → List RawResearchResult → List RawResearchResult
  | [], _ => []
  | _ :: _, [] => []
  | t :: ts, r :: rs =>
    (if env.completed t.id then r else failedResult t.id "total pipeline timeout") ::
      timeoutGuardSubs env ts rs

/-- Modelled from the spec: the Fan-Out/Fan-In stage over the sub-events
(§4.4): one retry-wrapped Research Call per sub-event, results in
submission order. -/
def fanOutSubs (cfg : Config) (env : PipelineEnv) (subs : List ResearchTarget) :
    List (RawResearchResult × Nat) :=
  subs.map (fun t => with_retry t.id (env.callOutcome t.id) cfg.max_retries)

/-- Modelled from the spec: the effective raw bundle the later stages see
(§4.4, §4.8): the fan-out results, with incomplete targets replaced by
failed placeholders when the total-timeout guard fired. -/
def effectiveRaw (cfg : Config) (env : PipelineEnv) (main : Option ResearchTarget)
    (subs : List ResearchTarget) : RawBundle :=
  let mainRaw := main.map (fun t => (with_retry t.id (env.callOutcome t.id) cfg.max_retries).1)
  let subsRaw := (fanOutSubs cfg env subs).map Prod.fst
  if env.timedOut then
    { main := match main, mainRaw with
        | some t, some r =>
          some (if env.completed t.id then r else failedResult t.id "total pipeline timeout")
        | _, m => m
      subs := timeoutGuardSubs env subs subsRaw }
  else
    { main := mainRaw, subs := subsRaw }

/-- Modelled from the spec: the synthesis stage (§4.5, §4.6, §4.8): on
total timeout, the Fallback Synthesizer over the effective raw results with
an explicit timeout note; otherwise the Synthesizer's response when it
arrived and validates, else the Fallback Synthesizer. -/
def synthStage (cfg : Config) (env : PipelineEnv) (main : Option ResearchTarget)
    (subs : List ResearchTarget) : StructuredAnalysis :=
  let raw := effectiveRaw cfg env main subs
  if env.timedOut then
    let fb := fallback_synthesize main subs raw
    { fb with synthesis :=
        "The research pipeline timed out before completing. " ++ fb.synthesis }
  else
    match env.synth with
    | some a => if validAnalysis main subs a then a else fallback_synthesize main subs raw
    | none => fallback_synthesize main subs raw

/-- Modelled from the spec: the number of Research Call attempts a run
makes (network calls, for §7(d)). -/
def networkAttempts (cfg : Config) (env : PipelineEnv) (main : Option ResearchTarget)
    (subs : List ResearchTarget) : Nat :=
  ((main.map (fun t => (with_retry t.id (env.callOutcome t.id) cfg.max_retries).2)).getD 0) +
    ((fanOutSubs cfg env subs).map Prod.snd).sum

/-- Modelled from the spec: `run(main?, subs, total_timeout)` — the Pipeline
Orchestrator (§4.8): validate that `subs` is non-empty (the only hard
error, reported before any network call); then fan out, synthesize (falling
back on failure or timeout) and assemble. Returns the result paired with
the number of Research Call attempts made. -/
def run (cfg : Config) (env : PipelineEnv) (main : Option ResearchTarget)
    (subs : List ResearchTarget) : Except String ResearchOutput × Nat :=
  if subs.isEmpty then
    (.error "sub_events must be non-empty", 0)
  else
    (.ok (assemble main subs (effectiveRaw cfg env main subs)
        (synthStage cfg env main subs) env.now),
      networkAttempts cfg env main subs)

/-- A concrete configuration (the spec's stated defaults, §6, in
milliseconds). -/
def exampleConfig : Config :=
  { per_research_timeout := 90000, synthesis_timeout := 60000
    total_timeout := 180000, max_concurrent_research := 10
    max_retries := 2, retry_delay := 1000 }

/-- A concrete environment in which every Research Call attempt fails and
the Synthesizer call fails. -/
def exampleFailEnv : PipelineEnv :=
  { callOutcome := fun _ _ => .failure "backend unreachable"
    synth := none
    timedOut := false
    completed := fun _ => true
    now := "2026-02-21T15:30:00+00:00" }

/-- A concrete main-event target. -/
def exampleMainTarget : ResearchTarget :=
  { id := "us-strikes-iran", title := "US strikes Iran by...?", description := none }

/-- A concrete sub-event target. -/
def exampleSubTarget : ResearchTarget :=
  { id := "khamenei-out-by-2026", title := "Khamenei out by 2026?", description := none }

/-! ### Properties of the retry wrapper -/

theorem runAttempts_count (target_id : String) (f : Nat → CallOutcome) :
    ∀ remaining attempt, (runAttempts target_id f attempt remaining).2 ≤ attempt + remaining := by
  intro remaining
  induction remaining with
  | zero => intro attempt; simp [runAttempts]
  | succ rem ih =>
    intro attempt
    rw [runAttempts]
    split
    · dsimp only
      omega
    · by_cases hrem : rem = 0
      · rw [if_pos hrem]
        dsimp only
        omega
      · rw [if_neg hrem]
        calc (runAttempts target_id f (attempt + 1) rem).2 ≤ (attempt + 1) + rem :=
              ih (attempt + 1)
          _ ≤ attempt + (rem + 1) := by omega

theorem runAttempts_allFail (target_id : String) (f : Nat → CallOutcome)
    (errOf : Nat → String) (hf : ∀ n, f n = .failure (errOf n)) :
    ∀ remaining attempt, runAttempts target_id f attempt (remaining + 1) =
      (failedResult target_id (errOf (attempt + remaining)), attempt + remaining + 1) := by
  intro remaining
  induction remaining with
  | zero => intro attempt; rw [runAttempts, hf attempt]; simp
  | succ rem ih =>
    intro attempt
    rw [runAttempts, hf attempt]
    dsimp only
    rw [if_neg (Nat.succ_ne_zero rem), ih (attempt + 1)]
    have h1 : attempt + 1 + rem = attempt + (rem + 1) := by omega
    rw [h1]

/-- C4: the retrying call wrapper attempts the underlying Research Call at
most `max_retries + 1` times, and for a call that fails on every attempt it
does not raise: it returns the `RawResearchResult` with `succeeded = false`
carrying the last attempt's error, after exactly `max_retries + 1`
attempts. -/
theorem with_retry_bound (target_id : String) (callFactory : Nat → CallOutcome)
    (max_retries : Nat) :
    (with_retry target_id callFactory max_retries).2 ≤ max_retries + 1 ∧
    (∀ errOf : Nat → String, (∀ n, callFactory n = .failure (errOf n)) →
      with_retry target_id callFactory max_retries =
        (failedResult target_id (errOf max_retries), max_retries + 1) ∧
      (with_retry target_id callFactory max_retries).1.succeeded = false) := by
  constructor
  · simpa using runAttempts_count target_id callFactory (max_retries + 1) 0
  · intro errOf hf
    have h := runAttempts_allFail target_id callFactory errOf hf max_retries 0
    simp only [Nat.zero_add] at h
    refine ⟨h, ?_⟩
    rw [with_retry, h]
    rfl

/-- A concrete instantiation of `with_retry_bound`: with `max_retries = 2`
and an always-failing call, the wrapper returns the failed result of the
third (last) attempt. -/
theorem with_retry_bound_witness :
    with_retry "target-1" (fun n => .failure (toString n)) 2 =
      (failedResult "target-1" (toString 2), 3) :=
  ((with_retry_bound "target-1" (fun n => .failure (toString n)) 2).2
    (fun n => toString n) (fun _ => rfl)).1

/-! ### Properties of the orchestrator -/

/-- C2: the pipeline entry point never raises for non-empty `subs` — it
returns a well-formed `ResearchOutput` for every environment, however the
calls and the synthesis fail — while empty `subs`, the single hard input
error, is reported to the caller with zero Research Call attempts made
(before any network call). -/
theorem run_never_raises (cfg : Config) (env : PipelineEnv)
    (main : Option ResearchTarget) (subs : List ResearchTarget) :
    (subs ≠ [] → ∃ out, (run cfg env main subs).1 = .ok out) ∧
    (subs = [] →
      (∃ e, (run cfg env main subs).1 = .error e) ∧
      (run cfg env main subs).2 = 0) := by
  constructor
  · intro h
    rw [run, if_neg (by simpa using h)]
    exact ⟨_, rfl⟩
  · intro h
    subst h
    rw [run]
    simp

/-- A concrete instantiation of `run_never_raises`: an all-fail environment
still gets an ok output on a one-element batch, and the empty batch is a
hard error with zero call attempts. -/
theorem run_never_raises_witness :
    (∃ out, (run exampleConfig exampleFailEnv (some exampleMainTarget)
      [exampleSubTarget]).1 = .ok out) ∧
    (∃ e, (run exampleConfig exampleFailEnv (some exampleMainTarget)
      ([] : List ResearchTarget)).1 = .error e) ∧
    (run exampleConfig exampleFailEnv (some exampleMainTarget)
      ([] : List ResearchTarget)).2 = 0 :=
  ⟨(run_never_raises exampleConfig exampleFailEnv (some exampleMainTarget)
      [exampleSubTarget]).1 (by simp),
   (run_never_raises exampleConfig exampleFailEnv (some exampleMainTarget) []).2 rfl⟩

/-! ### Properties of the output assembler -/

theorem assembleEntry_target_id (t : ResearchTarget) (raw : Option RawResearchResult)
    (a : Option EventAnalysis) : (assembleEntry t raw a).target_id = t.id := by
  unfold assembleEntry degradedResearch
  cases raw with
  | none => rfl
  | some r =>
    cases a with
    | none => rfl
    | some a0 => by_cases h : r.succeeded <;> simp [h]

theorem assembleEntry_failed (t : ResearchTarget) (r : RawResearchResult)
    (hfail : r.succeeded = false) (a : Option EventAnalysis) :
    assembleEntry t (some r) a = degradedResearch t r.error := by
  unfold assembleEntry
  cases a with
  | none => rfl
  | some a0 =>
    dsimp only
    rw [if_neg (by simp [hfail])]

theorem assembleSubs_length (analysis : StructuredAnalysis) :
    ∀ (ts : List ResearchTarget) (rs : List RawResearchResult),
      (assembleSubs analysis ts rs).length = ts.length := by
  intro ts
  induction ts with
  | nil => intro rs; cases rs <;> rfl
  | cons t ts ih => intro rs; cases rs <;> simp [assembleSubs, ih]

theorem assembleSubs_map_id (analysis : StructuredAnalysis) :
    ∀ (ts : List ResearchTarget) (rs : List RawResearchResult),
      (assembleSubs analysis ts rs).map (fun e => e.target_id) =
        ts.map (fun t => t.id) := by
  intro ts
  induction ts with
  | nil => intro rs; cases rs <;> rfl
  | cons t ts ih =>
    intro rs
    cases rs <;> simp [assembleSubs, ih, assembleEntry_target_id]

theorem assembleSubs_getElem? (analysis : StructuredAnalysis) :
    ∀ (ts : List ResearchTarget) (rs : List RawResearchResult) (i : Nat),
      (assembleSubs analysis ts rs)[i]? = (ts[i]?).map (fun t =>
        assembleEntry t rs[i]?
          (analysis.subs.find? (fun a => a.target_id == t.id))) := by
  intro ts
  induction ts with
  | nil => intro rs i; simp [assembleSubs]
  | cons t ts ih =>
    intro rs i
    cases rs with
    | nil =>
      cases i with
      | zero => simp [assembleSubs]
      | succ n => simpa [assembleSubs] using ih [] n
    | cons r rs =>
      cases i with
      | zero => simp [assembleSubs]
      | succ n => simpa [assembleSubs] using ih rs n

theorem timeoutGuardSubs_length (env : PipelineEnv) :
    ∀ (ts : List ResearchTarget) (rs : List RawResearchResult),
      (timeoutGuardSubs env ts rs).length = min ts.length rs.length := by
  intro ts
  induction ts with
  | nil => intro rs; simp [timeoutGuardSubs]
  | cons t ts ih =>
    intro rs
    cases rs with
    | nil => simp [timeoutGuardSubs]
    | cons r rs =>
      simp only [timeoutGuardSubs, List.length_cons, ih]
      omega

theorem effectiveRaw_subs_length (cfg : Config) (env : PipelineEnv)
    (main : Option ResearchTarget) (subs : List ResearchTarget) :
    (effectiveRaw cfg env main subs).subs.length = subs.length := by
  unfold effectiveRaw fanOutSubs
  by_cases h : env.timedOut <;>
    simp [h, timeoutGuardSubs_length]

theorem run_ok (cfg : Config) (env : PipelineEnv) (main : Option ResearchTarget)
    (subs : List ResearchTarget) (out : ResearchOutput) (hsubs : subs ≠ [])
    (hout : (run cfg env main subs).1 = .ok out) :
    out = assemble main subs (effectiveRaw cfg env main subs)
      (synthStage cfg env main subs) env.now := by
  rw [run, if_neg (by simpa using hsubs)] at hout
  simp only [Except.ok.injEq] at hout
  exact hout.symm

/-- C1: for every batch of N sub-events (N ≥ 1) and every environment —
however many of the Research Calls fail — the pipeline output has exactly
one `sub_event_research` entry per submitted sub-event, in submission
order, and a sub-event whose call failed gets the degraded entry (which has
`sentiment = neutral` and an explanatory summary), never a missing entry. -/
theorem sub_event_research_complete (cfg : Config) (env : PipelineEnv)
    (main : Option ResearchTarget) (subs : List ResearchTarget)
    (out : ResearchOutput) (hsubs : subs ≠ [])
    (hout : (run cfg env main subs).1 = .ok out) :
    out.sub_event_research.length = subs.length ∧
    out.sub_event_research.map (fun e => e.target_id) = subs.map (fun t => t.id) ∧
    (∀ (i : Nat) (t : ResearchTarget) (r : RawResearchResult), subs[i]? = some t →
      (effectiveRaw cfg env main subs).subs[i]? = some r → r.succeeded = false →
      out.sub_event_research[i]? = some (degradedResearch t r.error)) ∧
    (∀ t err, (degradedResearch t err).sentiment = .neutral ∧
      (degradedResearch t err).summary =
        "Research for this event was unavailable: " ++ err.getD "unknown error" ++ ".") := by
  have hR := run_ok cfg env main subs out hsubs hout
  subst hR
  refine ⟨assembleSubs_length _ _ _, assembleSubs_map_id _ _ _, ?_, fun t err => ⟨rfl, rfl⟩⟩
  intro i t r hti hri hfail
  show (assembleSubs (synthStage cfg env main subs) subs
    (effectiveRaw cfg env main subs).subs)[i]? = some (degradedResearch t r.error)
  rw [assembleSubs_getElem?, hti, Option.map_some', hri,
    assembleEntry_failed t r hfail]

/-- A concrete instantiation of `sub_event_research_complete`: one
sub-event whose research call always fails still yields exactly one
research entry. -/
theorem sub_event_research_complete_witness :
    ∃ out, (run exampleConfig exampleFailEnv (some exampleMainTarget)
        [exampleSubTarget]).1 = .ok out ∧
      out.sub_event_research.length = 1 :=
  ⟨_, rfl, (sub_event_research_complete exampleConfig exampleFailEnv
    (some exampleMainTarget) [exampleSubTarget] _ (by simp) rfl).1⟩

theorem relationshipFor_id (analysis : StructuredAnalysis) (t : ResearchTarget) :
    (relationshipFor analysis t).sub_event_id = t.id := by
  unfold relationshipFor
  cases hfind : (analysis.relationships.getD []).find?
      (fun r => r.sub_event_id == t.id) with
  | none => rfl
  | some r =>
    have := List.find?_some hfind
    simpa using this

/-- C3: for every pipeline output, `relationships` is present iff
`main_event_research` is present; with no main event both are structurally
omitted (`none`); with a main event, `relationships` has exactly one entry
per submitted sub-event, each referencing a `sub_event_id` that occurs
among the ids of `sub_event_research`. -/
theorem relationships_iff_main_research (cfg : Config) (env : PipelineEnv)
    (main : Option ResearchTarget) (subs : List ResearchTarget)
    (out : ResearchOutput) (hsubs : subs ≠ [])
    (hout : (run cfg env main subs).1 = .ok out) :
    (out.relationships.isSome ↔ out.main_event_research.isSome) ∧
    (main = none → out.main_event_research = none ∧ out.relationships = none) ∧
    (∀ m, main = some m → ∃ rels, out.relationships = some rels ∧
      rels.length = subs.length ∧
      rels.map (fun r => r.sub_event_id) = subs.map (fun t => t.id) ∧
      ∀ r ∈ rels, r.sub_event_id ∈
        out.sub_event_research.map (fun e => e.target_id)) := by
  have hR := run_ok cfg env main subs out hsubs hout
  subst hR
  refine ⟨?_, ?_, ?_⟩
  · cases main <;> simp [assemble]
  · intro h
    subst h
    exact ⟨rfl, rfl⟩
  · intro m hm
    subst hm
    refine ⟨subs.map (relationshipFor (synthStage cfg env (some m) subs)), rfl, by simp, ?_, ?_⟩
    · rw [List.map_map]
      exact List.map_congr_left (fun t _ => relationshipFor_id _ t)
    · intro r hr
      have hmap := assembleSubs_map_id (synthStage cfg env (some m) subs) subs
        (effectiveRaw cfg env (some m) subs).subs
      obtain ⟨t, ht, rfl⟩ := List.mem_map.mp hr
      show (relationshipFor (synthStage cfg env (some m) subs) t).sub_event_id ∈
        (assembleSubs (synthStage cfg env (some m) subs) subs
          (effectiveRaw cfg env (some m) subs).subs).map (fun e => e.target_id)
      rw [hmap, relationshipFor_id]
      exact List.mem_map.mpr ⟨t, ht, rfl⟩

/-- A concrete instantiation of `relationships_iff_main_research`: with a
main event and one sub-event, the output carries exactly one relationship. -/
theorem relationships_iff_main_research_witness :
    ∃ out rels, (run exampleConfig exampleFailEnv (some exampleMainTarget)
        [exampleSubTarget]).1 = .ok out ∧
      out.relationships = some rels ∧ rels.length = 1 := by
  obtain ⟨rels, h1, h2, -, -⟩ := (relationships_iff_main_research exampleConfig
    exampleFailEnv (some exampleMainTarget) [exampleSubTarget] _ (by simp)
    rfl).2.2 exampleMainTarget rfl
  exact ⟨_, rels, rfl, h1, h2⟩

theorem timeoutGuardSubs_congr {e1 e2 : PipelineEnv} (h : e1.completed = e2.completed) :
    ∀ (ts : List ResearchTarget) (rs : List RawResearchResult),
      timeoutGuardSubs e1 ts rs = timeoutGuardSubs e2 ts rs := by
  intro ts
  induction ts with
  | nil => intro rs; cases rs <;> rfl
  | cons t ts ih =>
    intro rs
    cases rs with
    | nil => rfl
    | cons r rs => simp [timeoutGuardSubs, h, ih]

theorem effectiveRaw_congr (cfg : Config) {e1 e2 : PipelineEnv}
    (hc : e1.callOutcome = e2.callOutcome) (ht : e1.timedOut = e2.timedOut)
    (hcm : e1.completed = e2.completed) (main : Option ResearchTarget)
    (subs : List ResearchTarget) :
    effectiveRaw cfg e1 main subs = effectiveRaw cfg e2 main subs := by
  unfold effectiveRaw fanOutSubs
  simp only [hc, ht, hcm, timeoutGuardSubs_congr hcm]

theorem synthStage_congr (cfg : Config) {e1 e2 : PipelineEnv}
    (hc : e1.callOutcome = e2.callOutcome) (hs : e1.synth = e2.synth)
    (ht : e1.timedOut = e2.timedOut) (hcm : e1.completed = e2.completed)
    (main : Option ResearchTarget) (subs : List ResearchTarget) :
    synthStage cfg e1 main subs = synthStage cfg e2 main subs := by
  simp only [synthStage, effectiveRaw_congr cfg hc ht hcm, hs, ht]

/-- C7: the Fallback Synthesizer is a pure function of (main, subs, raw):
invoking it twice on the same raw results gives identical output, the
synthesis stage is unchanged by the environment's clock, and two runs of
the fallback path that differ only in the clock produce outputs identical
in every field except `research_timestamp` — timestamps are applied only in
the Output Assembler. -/
theorem fallback_synthesize_pure (cfg : Config) (env : PipelineEnv)
    (main : Option ResearchTarget) (subs : List ResearchTarget) (t1 t2 : String)
    (hsubs : subs ≠ []) (hsynth : env.synth = none) :
    fallback_synthesize main subs (effectiveRaw cfg env main subs) =
      fallback_synthesize main subs (effectiveRaw cfg env main subs) ∧
    synthStage cfg { env with now := t1 } main subs =
      synthStage cfg { env with now := t2 } main subs ∧
    ∃ out1 out2,
      (run cfg { env with now := t1 } main subs).1 = .ok out1 ∧
      (run cfg { env with now := t2 } main subs).1 = .ok out2 ∧
      out1.research_timestamp = t1 ∧ out2.research_timestamp = t2 ∧
      out1.main_event_research = out2.main_event_research ∧
      out1.sub_event_research = out2.sub_event_research ∧
      out1.relationships = out2.relationships ∧
      out1.synthesis = out2.synthesis ∧
      out1.disclaimer = out2.disclaimer := by
  have hne : ¬ subs.isEmpty = true := by simpa using hsubs
  have he : effectiveRaw cfg { env with now := t1 } main subs =
      effectiveRaw cfg { env with now := t2 } main subs :=
    @effectiveRaw_congr cfg { env with now := t1 } { env with now := t2 }
      rfl rfl rfl main subs
  have hsyn : synthStage cfg { env with now := t1 } main subs =
      synthStage cfg { env with now := t2 } main subs :=
    @synthStage_congr cfg { env with now := t1 } { env with now := t2 }
      rfl rfl rfl rfl main subs
  refine ⟨rfl, hsyn,
    assemble main subs (effectiveRaw cfg { env with now := t1 } main subs)
      (synthStage cfg { env with now := t1 } main subs) t1,
    assemble main subs (effectiveRaw cfg { env with now := t2 } main subs)
      (synthStage cfg { env with now := t2 } main subs) t2,
    ?_, ?_, rfl, rfl, ?_, ?_, ?_, ?_, rfl⟩
  · rw [run, if_neg hne]
  · rw [run, if_neg hne]
  · rw [he, hsyn]
    rfl
  · rw [he, hsyn]
    rfl
  · rw [he, hsyn]
    rfl
  · rw [he, hsyn]
    rfl

/-- A concrete instantiation of `fallback_synthesize_pure`: the synthesis
stage of the all-fail environment is unchanged by the clock. -/
theorem fallback_synthesize_pure_witness :
    synthStage exampleConfig { exampleFailEnv with now := "t1" }
        (some exampleMainTarget) [exampleSubTarget] =
      synthStage exampleConfig { exampleFailEnv with now := "t2" }
        (some exampleMainTarget) [exampleSubTarget] :=
  (fallback_synthesize_pure exampleConfig exampleFailEnv (some exampleMainTarget)
    [exampleSubTarget] "t1" "t2" (by simp) rfl).2.1

/-! ### The fan-out latency model -/

/-- Modelled from the spec: the duration of one attempt of a Research Call —
the backend's raw duration capped by the per-call timeout the wrapper
enforces (§4.2). -/
def attemptDuration (timeout rawDuration : Nat) : Nat := min rawDuration timeout

/-- Modelled from the spec (§4.2, §8): the wall-clock duration of one
retry-wrapped task making `attempts` attempts: each attempt capped by
`timeout`, plus `retry_delay` before each retry. -/
def taskDuration (timeout retry_delay : Nat) (rawDurations : Nat → Nat)
    (attempts : Nat) : Nat :=
  ((List.range attempts).map (fun n => attemptDuration timeout (rawDurations n))).sum +
    (attempts - 1) * retry_delay

/-- Modelled from the spec (§4.4, §5): with Concurrency Limiter capacity at
least the number of tasks every task starts immediately and the stage ends
with the slowest task; with fewer slots the sum is a safe upper bound (not
needed by the claims). -/
def fanOutWallTime (capacity : Nat) (durations : List Nat) : Nat :=
  if durations.length ≤ capacity then durations.foldr max 0 else durations.sum

/-- Modelled from the spec: the durations of the retry-wrapped tasks of one
fan-out stage, given each target's per-attempt backend durations. -/
def taskDurations (cfg : Config) (env : PipelineEnv)
    (rawDurations : String → Nat → Nat) (subs : List ResearchTarget) : List Nat :=
  subs.map (fun t => taskDuration cfg.per_research_timeout cfg.retry_delay
    (rawDurations t.id) (with_retry t.id (env.callOutcome t.id) cfg.max_retries).2)

theorem sum_attempts_le (timeout : Nat) (f : Nat → Nat) :
    ∀ A, ((List.range A).map (fun n => attemptDuration timeout (f n))).sum ≤
      A * timeout := by
  intro A
  induction A with
  | zero => simp
  | succ n ih =>
    rw [List.range_succ, List.map_append, List.sum_append]
    have h1 : attemptDuration timeout (f n) ≤ timeout := Nat.min_le_right _ _
    simp only [List.map_cons, List.map_nil, List.sum_cons, List.sum_nil]
    calc ((List.range n).map (fun k => attemptDuration timeout (f k))).sum +
          (attemptDuration timeout (f n) + 0) ≤ n * timeout + (timeout + 0) :=
        Nat.add_le_add ih (Nat.add_le_add_right h1 0)
      _ = (n + 1) * timeout := by ring

theorem taskDuration_le (timeout delay : Nat) (f : Nat → Nat) (A R : Nat)
    (hA : A ≤ R + 1) :
    taskDuration timeout delay f A ≤ (R + 1) * timeout + R * delay := by
  unfold taskDuration
  have h1 := sum_attempts_le timeout f A
  have h2 : A * timeout ≤ (R + 1) * timeout := Nat.mul_le_mul_right _ hA
  have h3 : (A - 1) * delay ≤ R * delay := Nat.mul_le_mul_right _ (by omega)
  omega

theorem foldr_max_le (B : Nat) : ∀ (ds : List Nat), (∀ d ∈ ds, d ≤ B) →
    ds.foldr max 0 ≤ B := by
  intro ds
  induction ds with
  | nil => intro _; simp
  | cons d ds ih =>
    intro h
    simp only [List.foldr_cons]
    exact max_le (h d (List.mem_cons_self _ _))
      (ih (fun x hx => h x (List.mem_cons_of_mem _ hx)))

/-- C8: with concurrency capacity at least the number of targets, the
Fan-Out/Fan-In stage's wall-clock time is the slowest single task's
duration, and it is bounded by the single-task retry bound
`timeout × (max_retries+1) + max_retries × retry_delay` — independent of the
number of targets, not by N times that bound. -/
theorem fanout_latency (cfg : Config) (env : PipelineEnv)
    (subs : List ResearchTarget) (rawDurations : String → Nat → Nat)
    (hcap : subs.length ≤ cfg.max_concurrent_research) :
    fanOutWallTime cfg.max_concurrent_research
        (taskDurations cfg env rawDurations subs) =
      (taskDurations cfg env rawDurations subs).foldr max 0 ∧
    fanOutWallTime cfg.max_concurrent_research
        (taskDurations cfg env rawDurations subs) ≤
      (cfg.max_retries + 1) * cfg.per_research_timeout +
        cfg.max_retries * cfg.retry_delay := by
  have hlen : (taskDurations cfg env rawDurations subs).length ≤
      cfg.max_concurrent_research := by
    simpa [taskDurations] using hcap
  have heq : fanOutWallTime cfg.max_concurrent_research
      (taskDurations cfg env rawDurations subs) =
      (taskDurations cfg env rawDurations subs).foldr max 0 := by
    rw [fanOutWallTime, if_pos hlen]
  refine ⟨heq, ?_⟩
  rw [heq]
  apply foldr_max_le
  intro d hd
  obtain ⟨t, ht, rfl⟩ := List.mem_map.mp (by simpa [taskDurations] using hd)
  exact taskDuration_le _ _ _ _ _
    (by simpa using runAttempts_count t.id (env.callOutcome t.id) (cfg.max_retries + 1) 0)

/-- A concrete instantiation of `fanout_latency`: with the default
configuration and one always-slow target, the stage is bounded by the
single-task bound. -/
theorem fanout_latency_witness :
    fanOutWallTime exampleConfig.max_concurrent_research
        (taskDurations exampleConfig exampleFailEnv (fun _ _ => 120000)
          [exampleSubTarget]) ≤
      (exampleConfig.max_retries + 1) * exampleConfig.per_research_timeout +
        exampleConfig.max_retries * exampleConfig.retry_delay :=
  (fanout_latency exampleConfig exampleFailEnv [exampleSubTarget]
    (fun _ _ => 120000) (by simp [exampleConfig])).2

end Agent

end Pythia
